import Mathlib

/-!
# The implementors fragment `trait.StructuralPartialEq.js`

A shallow embedding of the generated script
`src/implementors/core/marker/trait.StructuralPartialEq.js`:

* lines 1-18 build the object `implementors` by seventeen property assignments;
* line 19 hands it to `window.register_implementors` when that global is truthy, and stores
  it in `window.pending_implementors` otherwise.

JavaScript values are a first-order datatype and callable values are identified by a number
whose behaviour is supplied by the host page.  The two globals are taken to be plain,
writable data properties of `window` (no accessors), so that a read has no effect of its own
and a write always takes effect.  Every primitive step (property read, property write, call) logs itself, so that
statements about "what the fragment did" are statements about the log.
-/

namespace StructuralPartialEq

/-! ## Data model -/

/-- Value of one property of a descriptor object literal. -/
inductive Lit where
  | str (s : String)
  | bool (b : Bool)
  | arr (xs : List String)
  deriving DecidableEq

/-- Descriptor object literal: its properties, in the order they are written. -/
abbrev Descriptor := List (String × Lit)

/-- Plain object whose property values are arrays of descriptors: the own string keys in
insertion order (none of the keys used here is an array index, so insertion order is the
enumeration order). -/
abbrev Registry := List (String × List Descriptor)

/-- Property assignment `o[k] = v` on a plain object: an existing key keeps its position
and gets the new value, a new key is appended. -/
def Registry.set : Registry → String → List Descriptor → Registry
  | [], k, v => [(k, v)]
  | (k', v') :: rest, k, v =>
    if k' = k then (k', v) :: rest else (k', v') :: Registry.set rest k v

/-- Property read `o[k]`: `none` stands for `undefined`. -/
def Registry.get : Registry → String → Option (List Descriptor)
  | [], _ => none
  | (k', v') :: rest, k => if k' = k then some v' else Registry.get rest k

/-- Value of property `k` of a descriptor literal. -/
def Descriptor.field : Descriptor → String → Option Lit
  | [], _ => none
  | (k', v') :: rest, k => if k' = k then some v' else Descriptor.field rest k

/-- The right-hand sides of lines 2-18, paired with the key each line assigns to, in line
order. -/
def assignments : List (String × List Descriptor) := [
  ("ansi_term", [
    [("text", .str "impl StructuralPartialEq for Style"),
     ("synthetic", .bool false),
     ("types", .arr [])],
    [("text", .str "impl StructuralPartialEq for Colour"),
     ("synthetic", .bool false),
     ("types", .arr [])],
    [("text", .str "impl&lt;'a, S:&nbsp;'a + ToOwned + ?Sized&gt; StructuralPartialEq for ANSIGenericString&lt;'a, S&gt; <span class=\"where fmt-newline\">where<br>&nbsp;&nbsp;&nbsp;&nbsp;&lt;S as ToOwned&gt;::Owned: Debug,&nbsp;</span>"),
     ("synthetic", .bool false),
     ("types", .arr [])]]),
  ("bcs", [
    [("text", .str "impl StructuralPartialEq for Error"),
     ("synthetic", .bool false),
     ("types", .arr [])]]),
  ("byteorder", [
    [("text", .str "impl StructuralPartialEq for BigEndian"),
     ("synthetic", .bool false),
     ("types", .arr [])],
    [("text", .str "impl StructuralPartialEq for LittleEndian"),
     ("synthetic", .bool false),
     ("types", .arr [])]]),
  ("clap", [
    [("text", .str "impl StructuralPartialEq for AppSettings"),
     ("synthetic", .bool false),
     ("types", .arr [])],
    [("text", .str "impl StructuralPartialEq for ArgSettings"),
     ("synthetic", .bool false),
     ("types", .arr [])],
    [("text", .str "impl StructuralPartialEq for ErrorKind"),
     ("synthetic", .bool false),
     ("types", .arr [])]]),
  ("glob", [
    [("text", .str "impl StructuralPartialEq for Pattern"),
     ("synthetic", .bool false),
     ("types", .arr [])],
    [("text", .str "impl StructuralPartialEq for MatchOptions"),
     ("synthetic", .bool false),
     ("types", .arr [])]]),
  ("include_dir", [
    [("text", .str "impl&lt;'a&gt; StructuralPartialEq for Dir&lt;'a&gt;"),
     ("synthetic", .bool false),
     ("types", .arr [])],
    [("text", .str "impl&lt;'a&gt; StructuralPartialEq for File&lt;'a&gt;"),
     ("synthetic", .bool false),
     ("types", .arr [])],
    [("text", .str "impl&lt;'a&gt; StructuralPartialEq for DirEntry&lt;'a&gt;"),
     ("synthetic", .bool false),
     ("types", .arr [])]]),
  ("proc_macro2", [
    [("text", .str "impl StructuralPartialEq for Delimiter"),
     ("synthetic", .bool false),
     ("types", .arr [])],
    [("text", .str "impl StructuralPartialEq for Spacing"),
     ("synthetic", .bool false),
     ("types", .arr [])]]),
  ("proc_macro_error", [
    [("text", .str "impl StructuralPartialEq for Level"),
     ("synthetic", .bool false),
     ("types", .arr [])]]),
  ("serde", [
    [("text", .str "impl StructuralPartialEq for Error"),
     ("synthetic", .bool false),
     ("types", .arr [])],
    [("text", .str "impl&lt;'a&gt; StructuralPartialEq for Unexpected&lt;'a&gt;"),
     ("synthetic", .bool false),
     ("types", .arr [])]]),
  ("serde_generate", [
    [("text", .str "impl StructuralPartialEq for Encoding"),
     ("synthetic", .bool false),
     ("types", .arr [])]]),
  ("serde_reflection", [
    [("text", .str "impl StructuralPartialEq for Error"),
     ("synthetic", .bool false),
     ("types", .arr [])],
    [("text", .str "impl StructuralPartialEq for Format"),
     ("synthetic", .bool false),
     ("types", .arr [])],
    [("text", .str "impl StructuralPartialEq for ContainerFormat"),
     ("synthetic", .bool false),
     ("types", .arr [])],
    [("text", .str "impl&lt;T&gt; StructuralPartialEq for Named&lt;T&gt;"),
     ("synthetic", .bool false),
     ("types", .arr [])],
    [("text", .str "impl&lt;T&gt; StructuralPartialEq for Variable&lt;T&gt;"),
     ("synthetic", .bool false),
     ("types", .arr [])],
    [("text", .str "impl StructuralPartialEq for VariantFormat"),
     ("synthetic", .bool false),
     ("types", .arr [])],
    [("text", .str "impl StructuralPartialEq for Value"),
     ("synthetic", .bool false),
     ("types", .arr [])]]),
  ("serde_yaml", [
    [("text", .str "impl StructuralPartialEq for Mapping"),
     ("synthetic", .bool false),
     ("types", .arr [])],
    [("text", .str "impl StructuralPartialEq for Number"),
     ("synthetic", .bool false),
     ("types", .arr [])]]),
  ("serdegen", [
    [("text", .str "impl StructuralPartialEq for Runtime"),
     ("synthetic", .bool false),
     ("types", .arr [])]]),
  ("strsim", [
    [("text", .str "impl StructuralPartialEq for StrSimError"),
     ("synthetic", .bool false),
     ("types", .arr [])]]),
  ("textwrap", [
    [("text", .str "impl&lt;'a&gt; StructuralPartialEq for Word&lt;'a&gt;"),
     ("synthetic", .bool false),
     ("types", .arr [])],
    [("text", .str "impl StructuralPartialEq for WrapAlgorithm"),
     ("synthetic", .bool false),
     ("types", .arr [])]]),
  ("unicode_segmentation", [
    [("text", .str "impl StructuralPartialEq for GraphemeIncomplete"),
     ("synthetic", .bool false),
     ("types", .arr [])]]),
  ("yaml_rust", [
    [("text", .str "impl StructuralPartialEq for Event"),
     ("synthetic", .bool false),
     ("types", .arr [])],
    [("text", .str "impl StructuralPartialEq for TEncoding"),
     ("synthetic", .bool false),
     ("types", .arr [])],
    [("text", .str "impl StructuralPartialEq for TScalarStyle"),
     ("synthetic", .bool false),
     ("types", .arr [])],
    [("text", .str "impl StructuralPartialEq for Marker"),
     ("synthetic", .bool false),
     ("types", .arr [])],
    [("text", .str "impl StructuralPartialEq for ScanError"),
     ("synthetic", .bool false),
     ("types", .arr [])],
    [("text", .str "impl StructuralPartialEq for TokenType"),
     ("synthetic", .bool false),
     ("types", .arr [])],
    [("text", .str "impl StructuralPartialEq for Token"),
     ("synthetic", .bool false),
     ("types", .arr [])],
    [("text", .str "impl StructuralPartialEq for Yaml"),
     ("synthetic", .bool false),
     ("types", .arr [])]])]

/-- Lines 1-18: `var implementors = {};` followed by the seventeen assignments. -/
def implementors : Registry :=
  assignments.foldl (fun o kv => o.set kv.1 kv.2) []

/-! ## Values and the page -/

/-- Number value: not-a-number, an infinity, or the finite value `m * 2 ^ e` (both zeros
have `m = 0`). -/
inductive JSNumber where
  | nan
  | inf (neg : Bool)
  | fin (m : Int) (e : Int)
  deriving DecidableEq

/-- Values a global property of `window` can hold.  `htmlDDA` stands for the one kind of
object that is callable and yet falsy (`document.all`). -/
inductive JSValue where
  | undefined
  | null
  | bool (b : Bool)
  | number (n : JSNumber)
  | string (s : String)
  | bigint (i : Int)
  | symbol (id : Nat)
  | registry (r : Registry)
  | object (id : Nat)
  | function (id : Nat)
  | htmlDDA (id : Nat)
  deriving DecidableEq

/-- Truthiness test that `if (...)` applies to its condition. -/
def JSValue.toBoolean : JSValue → Bool
  | .undefined => false
  | .null => false
  | .bool b => b
  | .number .nan => false
  | .number (.inf _) => true
  | .number (.fin m _) => decide (m ≠ 0)
  | .string s => decide (s ≠ "")
  | .bigint i => decide (i ≠ 0)
  | .symbol _ => true
  | .registry _ => true
  | .object _ => true
  | .function _ => true
  | .htmlDDA _ => false

/-- Function objects can be called, and so can the falsy callable object. -/
def JSValue.isCallable : JSValue → Bool
  | .function _ => true
  | .htmlDDA _ => true
  | _ => false

/-- The two globals the fragment mentions. -/
inductive Global where
  | register_implementors
  | pending_implementors
  deriving DecidableEq

/-- The global object: the two properties of interest (`none` when the property is absent)
and everything else that lives on the page. -/
structure Window (σ : Type) where
  register_implementors : Option JSValue
  pending_implementors : Option JSValue
  rest : σ

/-- Property read `window.g`: an absent property reads as `undefined`. -/
def Window.get {σ : Type} (w : Window σ) : Global → JSValue
  | .register_implementors => w.register_implementors.getD .undefined
  | .pending_implementors => w.pending_implementors.getD .undefined

/-- Property write `window.g = v`. -/
def Window.put {σ : Type} (w : Window σ) : Global → JSValue → Window σ
  | .register_implementors, v => { w with register_implementors := some v }
  | .pending_implementors, v => { w with pending_implementors := some v }

/-- What a primitive step of the fragment leaves in the log. -/
inductive Event where
  | read (g : Global)
  | write (g : Global) (v : JSValue)
  | call (f : Nat) (args : List JSValue)
  deriving DecidableEq

/-- Abrupt completions: the `TypeError` of calling a non-callable value, or whatever a
called function throws. -/
inductive JSError where
  | notCallable (v : JSValue)
  | thrown (v : JSValue)
  deriving DecidableEq

/-- Behaviour of the page's function objects: function `f`, called with `args` on a page,
leaves a page and either returns or throws a value. -/
abbrev Host (σ : Type) := Nat → List JSValue → Window σ → Window σ × Except JSValue JSValue

/-- Machine state while a script runs: the page and the log of the script's own steps. -/
structure Machine (σ : Type) where
  window : Window σ
  events : List Event

/-- Script computations: state passing with abrupt completion. -/
def JS (σ : Type) (α : Type) := Machine σ → Except JSError α × Machine σ

instance {σ : Type} : Monad (JS σ) where
  pure a := fun m => (.ok a, m)
  bind x k := fun m =>
    match x m with
    | (.ok a, m') => k a m'
    | (.error e, m') => (.error e, m')

/-- Expression `window.g`. -/
def getGlobal {σ : Type} (g : Global) : JS σ JSValue :=
  fun m => (.ok (m.window.get g), { m with events := m.events ++ [.read g] })

/-- Statement `window.g = v`. -/
def setGlobal {σ : Type} (g : Global) (v : JSValue) : JS σ Unit :=
  fun m => (.ok (), { window := m.window.put g v, events := m.events ++ [.write g v] })

/-- Run the host's callable `f` on the current page and log the call. -/
def invoke {σ : Type} (host : Host σ) (f : Nat) (args : List JSValue) : JS σ JSValue :=
  fun m =>
    match host f args m.window with
    | (w, .ok r) => (.ok r, { window := w, events := m.events ++ [.call f args] })
    | (w, .error e) =>
      (.error (.thrown e), { window := w, events := m.events ++ [.call f args] })

/-- Call `callee(args)`: a `TypeError` when the callee is not callable, otherwise the
host's callable runs on the current page. -/
def callValue {σ : Type} (host : Host σ) (callee : JSValue) (args : List JSValue) :
    JS σ JSValue :=
  fun m =>
    match callee with
    | .function f => invoke host f args m
    | .htmlDDA f => invoke host f args m
    | v => (.error (.notCallable v), m)

/-! ## The fragment -/

/-- Line 19, for an arbitrary registry value:
`if (window.register_implementors) {window.register_implementors(implementors);}
 else {window.pending_implementors = implementors;}`. -/
def handOff {σ : Type} (host : Host σ) (implementors : Registry) : JS σ Unit := do
  if (← getGlobal .register_implementors).toBoolean then
    let callee ← getGlobal .register_implementors
    let _ ← callValue host callee [.registry implementors]
  else
    setGlobal .pending_implementors (.registry implementors)

/-- The whole script: the body of the immediately invoked function. -/
def fragment {σ : Type} (host : Host σ) : JS σ Unit :=
  handOff host implementors

/-- Result of evaluating a script on a page. -/
structure Outcome (σ : Type) where
  window : Window σ
  events : List Event
  error : Option JSError

/-- Evaluate a script on a page, starting from an empty log. -/
def run {σ : Type} (script : JS σ Unit) (w : Window σ) : Outcome σ :=
  match script { window := w, events := [] } with
  | (.ok _, m) => { window := m.window, events := m.events, error := none }
  | (.error e, m) => { window := m.window, events := m.events, error := some e }

/-- The calls in a log, in order. -/
def invocations : List Event → List (Nat × List JSValue)
  | [] => []
  | .call f args :: es => (f, args) :: invocations es
  | _ :: es => invocations es

/-- The values written to the buffer slot `window.pending_implementors`, in order. -/
def bufferWrites : List Event → List JSValue
  | [] => []
  | .write .pending_implementors v :: es => v :: bufferWrites es
  | _ :: es => bufferWrites es

/-- The values handed off in a log: call arguments and buffer writes. -/
def payloads : List Event → List JSValue
  | [] => []
  | .call _ args :: es => args ++ payloads es
  | .write .pending_implementors v :: es => v :: payloads es
  | _ :: es => payloads es


/-! ## The consumer -/

/-- Identity of the consumer's entry-point among the page's function objects. -/
def consumerFn : Nat := 0

/-- Modelled from the spec: the Registry Sink's entry-point, which is not part of the
fragment's file.  It is a callable "accepting one ImplementorRegistry-shaped value and
returning nothing"; the page component `rest` records, in order, the registries the
consumer has received.  Every other function object of the page does nothing. -/
def sinkHost : Host (List JSValue) :=
  fun f args w =>
    if f = consumerFn then
      ({ w with rest := w.rest ++ [args.headD .undefined] }, .ok .undefined)
    else (w, .ok .undefined)

/-- Modelled from the spec: the Registry Sink's initialisation, which is not part of the
fragment's file: "on initialization, checks PendingBuffer; if populated, treats its contents
as the initial registry and clears the buffer"; thereafter the entry-point is available. -/
def sinkInit (w : Window (List JSValue)) : Window (List JSValue) :=
  match w.pending_implementors with
  | some v =>
    { register_implementors := some (.function consumerFn),
      pending_implementors := none,
      rest := w.rest ++ [v] }
  | none => { w with register_implementors := some (.function consumerFn) }

/-! ## Sample pages -/

/-- A host whose functions leave the page alone and return `undefined`. -/
def idleHost : Host Unit := fun _ _ w => (w, .ok .undefined)

/-- A fresh page: neither global is present. -/
def freshPage : Window Unit :=
  { register_implementors := none, pending_implementors := none, rest := () }

/-- A page whose consumer entry-point is function object 1. -/
def readyPage : Window Unit :=
  { register_implementors := some (.function 1), pending_implementors := none, rest := () }

/-- A page on which `window.register_implementors` holds the number `1`. -/
def numberPage : Window Unit :=
  { register_implementors := some (.number (.fin 1 0)), pending_implementors := none,
    rest := () }

/-- A page on which `window.register_implementors` holds a non-empty string. -/
def stringPage : Window Unit :=
  { register_implementors := some (.string "later"), pending_implementors := none,
    rest := () }

/-- A page on which `window.register_implementors` holds the falsy callable object. -/
def allPage : Window Unit :=
  { register_implementors := some (.htmlDDA 2), pending_implementors := none, rest := () }

/-- A page of the consumer model on which nothing has happened yet. -/
def freshSinkPage : Window (List JSValue) :=
  { register_implementors := none, pending_implementors := none, rest := [] }

/-- A registry of some other fragment, as in the spec's scenario. -/
def otherRegistry : Registry :=
  [("libA", [[("text", .str "impl Foo for Bar"), ("synthetic", .bool false),
              ("types", .arr [])]])]

/-! ## The three branches of the hand-off -/

theorem run_handOff_falsy {σ : Type} (host : Host σ) (r : Registry) (w : Window σ)
    (h : (w.get .register_implementors).toBoolean = false) :
    run (handOff host r) w =
      { window := { w with pending_implementors := some (.registry r) },
        events := [.read .register_implementors, .write .pending_implementors (.registry r)],
        error := none } := by
  simp [run, handOff, bind, getGlobal, setGlobal, h, Window.put]

theorem run_handOff_function {σ : Type} (host : Host σ) (r : Registry) (w : Window σ) (f : Nat)
    (h : w.get .register_implementors = .function f) :
    run (handOff host r) w =
      { window := (host f [.registry r] w).1,
        events := [.read .register_implementors, .read .register_implementors,
                   .call f [.registry r]],
        error := match (host f [.registry r] w).2 with
          | .ok _ => none
          | .error e => some (.thrown e) } := by
  simp only [run, handOff, bind, getGlobal, h, JSValue.toBoolean, callValue, invoke, if_true]
  rcases hh : host f [.registry r] w with ⟨w', res⟩
  cases res <;> simp

theorem run_handOff_notCallable {σ : Type} (host : Host σ) (r : Registry) (w : Window σ)
    (ht : (w.get .register_implementors).toBoolean = true)
    (hc : (w.get .register_implementors).isCallable = false) :
    run (handOff host r) w =
      { window := w,
        events := [.read .register_implementors, .read .register_implementors],
        error := some (.notCallable (w.get .register_implementors)) } := by
  simp only [run, handOff, bind, getGlobal, ht, callValue, if_true]
  cases hv : w.get .register_implementors <;> simp_all [JSValue.isCallable]

theorem function_of_truthy_callable (v : JSValue) (ht : v.toBoolean = true)
    (hc : v.isCallable = true) : ∃ f, v = .function f := by
  cases v <;> simp_all [JSValue.isCallable, JSValue.toBoolean]

/-! ## Facts shared by the claims -/

theorem string_infix_split (s t : String) (h : s.data <:+: t.data) :
    ∃ pre post : String, t = pre ++ s ++ post := by
  obtain ⟨a, b, hab⟩ := h
  refine ⟨⟨a⟩, ⟨b⟩, ?_⟩
  apply String.ext
  simp [String.data_append, hab]

theorem descriptor_shape_all :
    ∀ kv ∈ implementors, ∀ d ∈ kv.2,
      d.map Prod.fst = ["text", "synthetic", "types"] ∧
      d.field "synthetic" = some (.bool false) ∧
      d.field "types" = some (.arr []) ∧
      ∃ t ∈ d.filterMap (fun p => match p.2 with | .str s => some s | _ => none),
        d.field "text" = some (.str t) ∧ "StructuralPartialEq for ".data <:+: t.data := by
  set_option maxRecDepth 1000000 in
  decide

theorem implementors_get_assigned :
    ∀ kv ∈ assignments, implementors.get kv.1 = some kv.2 := by
  set_option maxRecDepth 100000 in
  decide

theorem payloads_run_handOff {σ : Type} (host : Host σ) (r : Registry) (w : Window σ)
    (v : JSValue) (h : v ∈ payloads (run (handOff host r) w).events) : v = .registry r := by
  cases ht : (w.get .register_implementors).toBoolean
  · rw [run_handOff_falsy host r w ht] at h
    simpa [payloads] using h
  · cases hc : (w.get .register_implementors).isCallable
    · rw [run_handOff_notCallable host r w ht hc] at h
      simp [payloads] at h
    · obtain ⟨f, hf⟩ := function_of_truthy_callable _ ht hc
      rw [run_handOff_function host r w f hf] at h
      simpa [payloads] using h

theorem events_run_handOff_cases {σ : Type} (host : Host σ) (r : Registry) (w : Window σ) :
    (run (handOff host r) w).events
      = [.read .register_implementors, .write .pending_implementors (.registry r)] ∨
    (run (handOff host r) w).events
      = [.read .register_implementors, .read .register_implementors] ∨
    ∃ f, (run (handOff host r) w).events
      = [.read .register_implementors, .read .register_implementors,
         .call f [.registry r]] := by
  cases ht : (w.get .register_implementors).toBoolean
  · rw [run_handOff_falsy host r w ht]
    exact Or.inl rfl
  · cases hc : (w.get .register_implementors).isCallable
    · rw [run_handOff_notCallable host r w ht hc]
      exact Or.inr (Or.inl rfl)
    · obtain ⟨f, hf⟩ := function_of_truthy_callable _ ht hc
      rw [run_handOff_function host r w f hf]
      exact Or.inr (Or.inr ⟨f, rfl⟩)

theorem events_run_handOff_prior {σ : Type} (host : Host σ) (r : Registry) (w : Window σ)
    (prior : Option JSValue) :
    (run (handOff host r) { w with pending_implementors := prior }).events
      = (run (handOff host r) w).events := by
  have hget : ({ w with pending_implementors := prior } : Window σ).get .register_implementors
      = w.get .register_implementors := rfl
  cases ht : (w.get .register_implementors).toBoolean
  · rw [run_handOff_falsy host r w ht, run_handOff_falsy host r _ (hget ▸ ht)]
  · cases hc : (w.get .register_implementors).isCallable
    · rw [run_handOff_notCallable host r w ht hc,
        run_handOff_notCallable host r _ (hget ▸ ht) (hget ▸ hc)]
    · obtain ⟨f, hf⟩ := function_of_truthy_callable _ ht hc
      rw [run_handOff_function host r w f hf,
        run_handOff_function host r _ f (hget.trans hf)]

/-! ## Claims -/

/-- C1: on a page whose `window.register_implementors` is a function, the fragment calls
that function exactly once, with the registry of lines 1-18 as its only argument, writes
nothing to `window.pending_implementors` itself, and the page it leaves is the page the
consumer left when called on the untouched input page; so the buffer slot is as before
whenever the consumer does not change it. -/
theorem fragment_initialized_invokes_once {σ : Type} (host : Host σ) (w : Window σ) (f : Nat)
    (h : w.register_implementors = some (.function f)) :
    invocations (run (fragment host) w).events = [(f, [.registry implementors])] ∧
    bufferWrites (run (fragment host) w).events = [] ∧
    (run (fragment host) w).window = (host f [.registry implementors] w).1 ∧
    ((host f [.registry implementors] w).1.pending_implementors = w.pending_implementors →
      (run (fragment host) w).window.pending_implementors = w.pending_implementors) := by
  have hg : w.get .register_implementors = .function f := by simp [Window.get, h]
  rw [fragment, run_handOff_function host implementors w f hg]
  simp [invocations, bufferWrites]

theorem fragment_initialized_invokes_once_witness :
    readyPage.register_implementors = some (.function 1) ∧
    invocations (run (fragment idleHost) readyPage).events = [(1, [.registry implementors])] ∧
    bufferWrites (run (fragment idleHost) readyPage).events = [] ∧
    (run (fragment idleHost) readyPage).window.pending_implementors = none :=
  have t := fragment_initialized_invokes_once idleHost readyPage 1 rfl
  ⟨rfl, t.1, t.2.1, t.2.2.2 rfl⟩

/-- C2: on a page where `window.register_implementors` is absent, the fragment leaves
`window.pending_implementors` equal to the registry of lines 1-18, calls nothing, completes
normally and changes nothing else on the page. -/
theorem fragment_uninitialized_buffers {σ : Type} (host : Host σ) (w : Window σ)
    (h : w.register_implementors = none) :
    (run (fragment host) w).window.pending_implementors = some (.registry implementors) ∧
    invocations (run (fragment host) w).events = [] ∧
    (run (fragment host) w).error = none ∧
    (run (fragment host) w).window.register_implementors = none ∧
    (run (fragment host) w).window.rest = w.rest := by
  have hg : (w.get .register_implementors).toBoolean = false := by
    simp [Window.get, h, JSValue.toBoolean]
  rw [fragment, run_handOff_falsy host implementors w hg]
  simp [invocations, h]

theorem fragment_uninitialized_buffers_witness :
    freshPage.register_implementors = none ∧
    (run (fragment idleHost) freshPage).window.pending_implementors
      = some (.registry implementors) ∧
    invocations (run (fragment idleHost) freshPage).events = [] :=
  have t := fragment_uninitialized_buffers idleHost freshPage rfl
  ⟨rfl, t.1, t.2.1⟩

/-- C3, as stated, fails: on a page where `window.register_implementors` holds the number
`1` the fragment neither calls anything nor writes the buffer slot; the call attempt ends
in a `TypeError`. -/
theorem fragment_neither_effect_on_number :
    invocations (run (fragment idleHost) numberPage).events = [] ∧
    bufferWrites (run (fragment idleHost) numberPage).events = [] ∧
    (run (fragment idleHost) numberPage).window.pending_implementors = none ∧
    (run (fragment idleHost) numberPage).error
      = some (.notCallable (.number (.fin 1 0))) := by
  have ht : (numberPage.get .register_implementors).toBoolean = true := by decide
  have hc : (numberPage.get .register_implementors).isCallable = false := by decide
  rw [fragment, run_handOff_notCallable idleHost implementors numberPage ht hc]
  simp [invocations, bufferWrites, numberPage, Window.get]

/-- C3, amended: in no page state does the fragment both call and write the buffer slot;
it performs exactly one of the two exactly when `window.register_implementors` is falsy
(absent included) or callable, and neither exactly when that value is truthy and not
callable. -/
theorem fragment_exactly_one_effect {σ : Type} (host : Host σ) (w : Window σ) :
    (invocations (run (fragment host) w).events).length
      + (bufferWrites (run (fragment host) w).events).length ≤ 1 ∧
    ((invocations (run (fragment host) w).events).length
      + (bufferWrites (run (fragment host) w).events).length = 1 ↔
      ((w.get .register_implementors).toBoolean = false ∨
        (w.get .register_implementors).isCallable = true)) ∧
    ((invocations (run (fragment host) w).events).length
      + (bufferWrites (run (fragment host) w).events).length = 0 ↔
      ((w.get .register_implementors).toBoolean = true ∧
        (w.get .register_implementors).isCallable = false)) := by
  cases ht : (w.get .register_implementors).toBoolean
  · rw [fragment, run_handOff_falsy host implementors w ht]
    simp [invocations, bufferWrites]
  · cases hc : (w.get .register_implementors).isCallable
    · rw [fragment, run_handOff_notCallable host implementors w ht hc]
      simp [invocations, bufferWrites]
    · obtain ⟨f, hf⟩ := function_of_truthy_callable _ ht hc
      rw [fragment, run_handOff_function host implementors w f hf]
      simp [invocations, bufferWrites]

/-- C4, as stated, fails: on a page where `window.register_implementors` holds a non-empty
string (truthy, not callable) evaluation ends in a `TypeError`, and the registry is not
stored in `window.pending_implementors`. -/
theorem fragment_raises_on_string :
    (run (fragment idleHost) stringPage).error = some (.notCallable (.string "later")) ∧
    (run (fragment idleHost) stringPage).window.pending_implementors = none ∧
    bufferWrites (run (fragment idleHost) stringPage).events = [] := by
  have ht : (stringPage.get .register_implementors).toBoolean = true := by decide
  have hc : (stringPage.get .register_implementors).isCallable = false := by decide
  rw [fragment, run_handOff_notCallable idleHost implementors stringPage ht hc]
  simp [bufferWrites, stringPage, Window.get]

/-- C4, amended: the fragment calls `window.register_implementors` exactly when that value
is truthy and callable, and stores the registry in `window.pending_implementors` exactly
when that value is falsy (absent included, and the falsy callable object too).  Evaluation
ends in the `TypeError` of a call to a non-callable value exactly when the value is truthy
and not callable, and then the page is left as it was.  It completes normally when the
value is falsy, and when the value is a function it completes normally exactly when the
consumer returns. -/
theorem fragment_handoff_decision {σ : Type} (host : Host σ) (w : Window σ) :
    (invocations (run (fragment host) w).events ≠ [] ↔
      ((w.get .register_implementors).toBoolean = true ∧
        (w.get .register_implementors).isCallable = true)) ∧
    (bufferWrites (run (fragment host) w).events = [.registry implementors] ↔
      (w.get .register_implementors).toBoolean = false) ∧
    ((run (fragment host) w).error = some (.notCallable (w.get .register_implementors)) ↔
      ((w.get .register_implementors).toBoolean = true ∧
        (w.get .register_implementors).isCallable = false)) ∧
    ((w.get .register_implementors).toBoolean = true →
      (w.get .register_implementors).isCallable = false →
      (run (fragment host) w).window = w) ∧
    ((w.get .register_implementors).toBoolean = false →
      (run (fragment host) w).error = none ∧
      invocations (run (fragment host) w).events = [] ∧
      (run (fragment host) w).window
        = { w with pending_implementors := some (.registry implementors) }) ∧
    (∀ f, w.get .register_implementors = .function f →
      ((run (fragment host) w).error = none ↔
        ∃ r, (host f [.registry implementors] w).2 = .ok r)) := by
  cases ht : (w.get .register_implementors).toBoolean
  · rw [fragment, run_handOff_falsy host implementors w ht]
    refine ⟨by simp [invocations], by simp [bufferWrites], by simp, by simp,
      by simp [invocations], ?_⟩
    intro f hf
    rw [hf] at ht
    cases ht
  · cases hc : (w.get .register_implementors).isCallable
    · rw [fragment, run_handOff_notCallable host implementors w ht hc]
      refine ⟨by simp [invocations], by simp [bufferWrites], by simp, by simp, by simp, ?_⟩
      intro f hf
      rw [hf] at hc
      cases hc
    · obtain ⟨f, hf⟩ := function_of_truthy_callable _ ht hc
      rw [fragment, run_handOff_function host implementors w f hf]
      refine ⟨by simp [invocations], by simp [bufferWrites], ?_, by simp, by simp, ?_⟩
      · cases (host f [.registry implementors] w).2 <;> simp
      · intro g hg
        have hfg : f = g := by
          rw [hf] at hg
          cases hg
          rfl
        subst hfg
        cases (host f [.registry implementors] w).2 <;> simp

theorem fragment_handoff_decision_witness :
    (run (fragment idleHost) freshPage).error = none ∧
    (run (fragment idleHost) freshPage).window
      = { freshPage with pending_implementors := some (.registry implementors) } ∧
    (run (fragment idleHost) stringPage).window = stringPage ∧
    (run (fragment idleHost) readyPage).error = none ∧
    invocations (run (fragment idleHost) allPage).events = [] ∧
    (run (fragment idleHost) allPage).window
      = { allPage with pending_implementors := some (.registry implementors) } :=
  have a := fragment_handoff_decision idleHost freshPage
  have b := fragment_handoff_decision idleHost stringPage
  have c := fragment_handoff_decision idleHost readyPage
  have d := fragment_handoff_decision idleHost allPage
  ⟨(a.2.2.2.2.1 (by decide)).1, (a.2.2.2.2.1 (by decide)).2.2,
   b.2.2.2.1 (by decide) (by decide),
   (c.2.2.2.2.2 1 (by decide)).2 ⟨.undefined, rfl⟩,
   (d.2.2.2.2.1 (by decide)).2.1, (d.2.2.2.2.1 (by decide)).2.2⟩

/-- C5: with the consumer absent, whatever `window.pending_implementors` held before, the
fragment leaves the page with that slot replaced by its own registry and nothing else
changed, so the result does not depend on the prior content.  Of two fragments evaluated
in sequence with the consumer absent, the buffer holds the registry of the second one
only, whichever of the two this fragment is. -/
theorem fragment_overwrites_buffer {σ : Type} (host : Host σ) (w : Window σ)
    (prior : Option JSValue) (other : Registry) (h : w.register_implementors = none) :
    (run (fragment host) { w with pending_implementors := prior }).window
      = { w with pending_implementors := some (.registry implementors) } ∧
    (run (fragment host) (run (handOff host other) w).window).window
      = { w with pending_implementors := some (.registry implementors) } ∧
    (run (handOff host other) (run (fragment host) w).window).window
      = { w with pending_implementors := some (.registry other) } := by
  have hg : ∀ p : Option JSValue,
      (({ w with pending_implementors := p } : Window σ).get
        .register_implementors).toBoolean = false := by
    intro p
    simp [Window.get, h, JSValue.toBoolean]
  have hw : (w.get .register_implementors).toBoolean = false := by
    simp [Window.get, h, JSValue.toBoolean]
  refine ⟨?_, ?_, ?_⟩
  · rw [fragment, run_handOff_falsy host implementors _ (hg prior)]
  · rw [run_handOff_falsy host other w hw, fragment,
      run_handOff_falsy host implementors _ (hg _)]
  · rw [fragment, run_handOff_falsy host implementors w hw,
      run_handOff_falsy host other _ (hg _)]

theorem fragment_overwrites_buffer_witness :
    freshPage.register_implementors = none ∧
    (run (fragment idleHost)
        { freshPage with pending_implementors := some (.registry otherRegistry) }).window
      = { freshPage with pending_implementors := some (.registry implementors) } ∧
    (run (fragment idleHost) (run (handOff idleHost otherRegistry) freshPage).window).window
      = { freshPage with pending_implementors := some (.registry implementors) } ∧
    (run (handOff idleHost otherRegistry) (run (fragment idleHost) freshPage).window).window
      = { freshPage with pending_implementors := some (.registry otherRegistry) } :=
  ⟨rfl,
   fragment_overwrites_buffer idleHost freshPage (some (.registry otherRegistry))
     otherRegistry rfl⟩

/-- C6: whatever the fragment hands off, to the consumer or to the buffer, is a registry in
which every library key of lines 2-18 maps to exactly the descriptor sequence written on its
line, in the same order and with the same length; for `serde_reflection` these are the seven
descriptors for Error, Format, ContainerFormat, Named, Variable, VariantFormat, Value, and
for `clap` the three for AppSettings, ArgSettings, ErrorKind, in this order. -/
theorem handed_off_preserves_order {σ : Type} (host : Host σ) (w : Window σ) (v : JSValue)
    (h : v ∈ payloads (run (fragment host) w).events) :
    ∃ r, v = .registry r ∧
      r.map Prod.fst = assignments.map Prod.fst ∧
      (∀ kv ∈ assignments, r.get kv.1 = some kv.2) ∧
      (r.get "serde_reflection").map (List.map (fun d => d.field "text"))
        = some [some (.str "impl StructuralPartialEq for Error"),
                some (.str "impl StructuralPartialEq for Format"),
                some (.str "impl StructuralPartialEq for ContainerFormat"),
                some (.str "impl&lt;T&gt; StructuralPartialEq for Named&lt;T&gt;"),
                some (.str "impl&lt;T&gt; StructuralPartialEq for Variable&lt;T&gt;"),
                some (.str "impl StructuralPartialEq for VariantFormat"),
                some (.str "impl StructuralPartialEq for Value")] ∧
      (r.get "clap").map (List.map (fun d => d.field "text"))
        = some [some (.str "impl StructuralPartialEq for AppSettings"),
                some (.str "impl StructuralPartialEq for ArgSettings"),
                some (.str "impl StructuralPartialEq for ErrorKind")] := by
  refine ⟨implementors, payloads_run_handOff host implementors w v h, ?_,
    implementors_get_assigned, ?_, ?_⟩
  · set_option maxRecDepth 100000 in
    decide
  · set_option maxRecDepth 100000 in
    decide
  · set_option maxRecDepth 100000 in
    decide

theorem handed_off_preserves_order_witness :
    JSValue.registry implementors ∈ payloads (run (fragment idleHost) freshPage).events ∧
    ∃ r, JSValue.registry implementors = .registry r ∧
      r.map Prod.fst = assignments.map Prod.fst ∧
      (∀ kv ∈ assignments, r.get kv.1 = some kv.2) ∧
      (r.get "serde_reflection").map (List.map (fun d => d.field "text"))
        = some [some (.str "impl StructuralPartialEq for Error"),
                some (.str "impl StructuralPartialEq for Format"),
                some (.str "impl StructuralPartialEq for ContainerFormat"),
                some (.str "impl&lt;T&gt; StructuralPartialEq for Named&lt;T&gt;"),
                some (.str "impl&lt;T&gt; StructuralPartialEq for Variable&lt;T&gt;"),
                some (.str "impl StructuralPartialEq for VariantFormat"),
                some (.str "impl StructuralPartialEq for Value")] ∧
      (r.get "clap").map (List.map (fun d => d.field "text"))
        = some [some (.str "impl StructuralPartialEq for AppSettings"),
                some (.str "impl StructuralPartialEq for ArgSettings"),
                some (.str "impl StructuralPartialEq for ErrorKind")] :=
  have hm : JSValue.registry implementors
      ∈ payloads (run (fragment idleHost) freshPage).events := by
    rw [fragment, run_handOff_falsy idleHost implementors freshPage (by decide)]
    simp [payloads]
  ⟨hm, handed_off_preserves_order idleHost freshPage (.registry implementors) hm⟩

/-- C7: the seventeen keys assigned at lines 2-18 are pairwise distinct, so no assignment
replaces an earlier one: the registry is the list of assignments itself, with seventeen
entries in line order, each key mapped to the list of its own line, every list non-empty,
forty-two descriptors in all. -/
theorem implementors_keys_unique :
    (assignments.map Prod.fst).Nodup ∧
    assignments.length = 17 ∧
    implementors = assignments ∧
    implementors.length = 17 ∧
    (∀ kv ∈ assignments, implementors.get kv.1 = some kv.2) ∧
    (∀ kv ∈ implementors, kv.2 ≠ []) ∧
    (implementors.map (fun kv => kv.2.length)).sum = 42 := by
  set_option maxRecDepth 100000 in
  decide

theorem implementors_keys_unique_witness :
    implementors.get "bcs"
      = some [[("text", .str "impl StructuralPartialEq for Error"),
               ("synthetic", .bool false), ("types", .arr [])]] :=
  implementors_keys_unique.2.2.2.2.1
    ("bcs", [[("text", .str "impl StructuralPartialEq for Error"),
              ("synthetic", .bool false), ("types", .arr [])]])
    (by set_option maxRecDepth 100000 in decide)

/-- C8: for a single fragment and the consumer of the spec, both load orders deliver the
fragment's registry to the consumer exactly once.  Fragment first: the buffer holds the
registry, nothing is called, and the consumer's initialisation receives that registry and
clears the buffer.  Consumer first: the fragment calls the consumer once with the same
registry and the buffer stays absent.  Both orders end on the same page. -/
theorem load_order_independent (w : Window (List JSValue))
    (hr : w.register_implementors = none) (hp : w.pending_implementors = none) :
    (run (fragment sinkHost) w).window.pending_implementors
      = some (.registry implementors) ∧
    invocations (run (fragment sinkHost) w).events = [] ∧
    (sinkInit (run (fragment sinkHost) w).window).rest
      = w.rest ++ [.registry implementors] ∧
    (sinkInit (run (fragment sinkHost) w).window).pending_implementors = none ∧
    invocations (run (fragment sinkHost) (sinkInit w)).events
      = [(consumerFn, [.registry implementors])] ∧
    bufferWrites (run (fragment sinkHost) (sinkInit w)).events = [] ∧
    (run (fragment sinkHost) (sinkInit w)).window.rest
      = w.rest ++ [.registry implementors] ∧
    (run (fragment sinkHost) (sinkInit w)).window.pending_implementors = none ∧
    sinkInit (run (fragment sinkHost) w).window
      = (run (fragment sinkHost) (sinkInit w)).window := by
  have hw : (w.get .register_implementors).toBoolean = false := by
    simp [Window.get, hr, JSValue.toBoolean]
  have hi : (sinkInit w).get .register_implementors = .function consumerFn := by
    simp [sinkInit, hp, Window.get]
  rw [fragment, run_handOff_falsy sinkHost implementors w hw,
    run_handOff_function sinkHost implementors (sinkInit w) consumerFn hi]
  simp [invocations, bufferWrites, sinkInit, sinkHost, hp]

theorem load_order_independent_witness :
    freshSinkPage.register_implementors = none ∧
    freshSinkPage.pending_implementors = none ∧
    (sinkInit (run (fragment sinkHost) freshSinkPage).window).rest
      = [.registry implementors] ∧
    (run (fragment sinkHost) (sinkInit freshSinkPage)).window.rest
      = [.registry implementors] :=
  have t := load_order_independent freshSinkPage rfl rfl
  ⟨rfl, rfl, t.2.2.1, t.2.2.2.2.2.2.1⟩

/-- C9: the value the fragment hands off is the same in every page state and under every
host, namely the registry of lines 1-18; in every page state the fragment never reads
`window.pending_implementors`, and its own steps are the same whatever that slot held.
When `window.register_implementors` is falsy the page it leaves is the same too, and when
that value is truthy and not callable so is the error it ends in. -/
theorem fragment_payload_independent {σ τ : Type} (host : Host σ) (host' : Host τ)
    (w : Window σ) (w' : Window τ) :
    (∀ v ∈ payloads (run (fragment host) w).events,
      ∀ v' ∈ payloads (run (fragment host') w').events,
        v = v' ∧ v = .registry implementors) ∧
    Event.read .pending_implementors ∉ (run (fragment host) w).events ∧
    (∀ prior : Option JSValue,
      (run (fragment host) { w with pending_implementors := prior }).events
        = (run (fragment host) w).events) ∧
    (∀ prior : Option JSValue, (w.get .register_implementors).toBoolean = false →
      (run (fragment host) { w with pending_implementors := prior }).window
        = (run (fragment host) w).window) ∧
    (∀ prior : Option JSValue, (w.get .register_implementors).isCallable = false →
      (run (fragment host) { w with pending_implementors := prior }).error
        = (run (fragment host) w).error) := by
  refine ⟨?_, ?_, fun prior => events_run_handOff_prior host implementors w prior, ?_, ?_⟩
  · intro v h v' h'
    have e := payloads_run_handOff host implementors w v h
    have e' := payloads_run_handOff host' implementors w' v' h'
    exact ⟨e.trans e'.symm, e⟩
  · rcases events_run_handOff_cases host implementors w with hc | hc | ⟨f, hc⟩ <;>
      rw [fragment, hc] <;> simp
  · intro prior ht
    have ht' : (({ w with pending_implementors := prior } : Window σ).get
        .register_implementors).toBoolean = false := ht
    rw [fragment, run_handOff_falsy host implementors w ht,
      run_handOff_falsy host implementors _ ht']
  · intro prior hc
    have hc' : (({ w with pending_implementors := prior } : Window σ).get
        .register_implementors).isCallable = false := hc
    cases ht : (w.get .register_implementors).toBoolean
    · have ht' : (({ w with pending_implementors := prior } : Window σ).get
          .register_implementors).toBoolean = false := ht
      rw [fragment, run_handOff_falsy host implementors w ht,
        run_handOff_falsy host implementors _ ht']
    · have ht' : (({ w with pending_implementors := prior } : Window σ).get
          .register_implementors).toBoolean = true := ht
      rw [fragment, run_handOff_notCallable host implementors w ht hc,
        run_handOff_notCallable host implementors _ ht' hc']
      rfl

theorem fragment_payload_independent_witness :
    JSValue.registry implementors ∈ payloads (run (fragment idleHost) readyPage).events ∧
    JSValue.registry implementors ∈ payloads (run (fragment sinkHost) freshSinkPage).events ∧
    Event.read .pending_implementors ∉ (run (fragment idleHost) readyPage).events ∧
    Event.read .pending_implementors ∉ (run (fragment idleHost) numberPage).events ∧
    (run (fragment idleHost)
        { numberPage with pending_implementors := some (.registry otherRegistry) }).events
      = (run (fragment idleHost) numberPage).events ∧
    (run (fragment idleHost)
        { freshPage with pending_implementors := some (.registry otherRegistry) }).window
      = (run (fragment idleHost) freshPage).window :=
  have h1 : JSValue.registry implementors
      ∈ payloads (run (fragment idleHost) readyPage).events := by
    rw [fragment, run_handOff_function idleHost implementors readyPage 1 rfl]
    simp [payloads]
  have h2 : JSValue.registry implementors
      ∈ payloads (run (fragment sinkHost) freshSinkPage).events := by
    rw [fragment, run_handOff_falsy sinkHost implementors freshSinkPage (by decide)]
    simp [payloads]
  have t := fragment_payload_independent idleHost sinkHost readyPage freshSinkPage
  have n := fragment_payload_independent idleHost sinkHost numberPage freshSinkPage
  have e := fragment_payload_independent idleHost sinkHost freshPage freshSinkPage
  ⟨h1, h2, t.2.1, n.2.1, n.2.2.1 (some (.registry otherRegistry)),
   e.2.2.2.1 (some (.registry otherRegistry)) (by decide)⟩

/-- C10: every descriptor of the registry, under every library key, has exactly the three
properties `text`, `synthetic`, `types`, with `synthetic` false, `types` the empty array,
and a `text` string that contains `StructuralPartialEq for `. -/
theorem descriptors_all_explicit (k : String) (ds : List Descriptor) (d : Descriptor)
    (hk : (k, ds) ∈ implementors) (hd : d ∈ ds) :
    d.map Prod.fst = ["text", "synthetic", "types"] ∧
    d.field "synthetic" = some (.bool false) ∧
    d.field "types" = some (.arr []) ∧
    ∃ t pre post : String,
      d.field "text" = some (.str t) ∧ t = pre ++ "StructuralPartialEq for " ++ post := by
  obtain ⟨h1, h2, h3, t, -, h4, h5⟩ := descriptor_shape_all (k, ds) hk d hd
  obtain ⟨pre, post, h6⟩ := string_infix_split _ _ h5
  exact ⟨h1, h2, h3, t, pre, post, h4, h6⟩

theorem descriptors_all_explicit_witness :
    ("bcs", [[("text", Lit.str "impl StructuralPartialEq for Error"),
              ("synthetic", Lit.bool false), ("types", Lit.arr [])]]) ∈ implementors ∧
    ∃ t pre post : String,
      Descriptor.field [("text", Lit.str "impl StructuralPartialEq for Error"),
          ("synthetic", Lit.bool false), ("types", Lit.arr [])] "text" = some (.str t) ∧
        t = pre ++ "StructuralPartialEq for " ++ post :=
  have hk : ("bcs", [[("text", Lit.str "impl StructuralPartialEq for Error"),
              ("synthetic", Lit.bool false), ("types", Lit.arr [])]]) ∈ implementors := by
    set_option maxRecDepth 100000 in
    decide
  ⟨hk, (descriptors_all_explicit "bcs" _ _ hk (List.mem_singleton.2 rfl)).2.2.2⟩

end StructuralPartialEq
